import Mathlib

/-!
# Verification of `claude-skills` automation scripts

Shallow embedding of the two Python utilities in this repository:

* `src/github-task-sync/scripts/sync_tasks.py` — the GitHub task synchroniser
  (`GitHubProjectSync`, `parse_markdown_tasks`, `main`);
* `src/.github/scripts/build_skills.py` — the skill package builder
  (`extract_yaml_preamble`, `find_skills`, `create_skill_zips`,
  `generate_readme`, `main`).

External effects (the `gh` CLI, `git` remotes, the filesystem) are modelled as
explicit inputs: an environment of oracle functions for Pipeline B, and a list
of directory entries plus an archiver oracle for Pipeline A.  Strings are
modelled with Lean `String`/`List Char`; Python whitespace and `strip`/`rstrip`
are modelled over the ASCII whitespace characters.
-/

/-! ## Python string primitives -/

/-- Python's whitespace class `\s` / `str.strip()` default set, restricted to
the ASCII whitespace characters `' '`, `\t`, `\n`, `\v`, `\f`, `\r`. -/
def isPySpace (c : Char) : Bool :=
  c == ' ' || c == '\t' || c == '\n' || c == '\x0b' || c == '\x0c' || c == '\r'

/-- Python `str.strip()` on a character list: drop whitespace from both ends. -/
def pyStripList (cs : List Char) : List Char :=
  ((cs.dropWhile isPySpace).reverse.dropWhile isPySpace).reverse

/-- Python `str.strip()` on a `String`. -/
def pyStrip (s : String) : String :=
  String.mk (pyStripList s.toList)

/-- Python `content.split('\n')` on a character list: split at every newline,
keeping empty pieces (`''.split('\n') == ['']`, and a trailing newline yields
a trailing empty piece). -/
def splitOnNl : List Char → List (List Char)
  | [] => [[]]
  | '\n' :: cs => [] :: splitOnNl cs
  | c :: cs =>
    match splitOnNl cs with
    | l :: ls => (c :: l) :: ls
    | [] => [[c]]

/-- Python `str.rstrip('.git')`: removes the longest trailing run of characters
drawn from the SET `{'.', 'g', 'i', 't'}` (this is character-set semantics, not
suffix removal). -/
def pyRstripGitSet (cs : List Char) : List Char :=
  (cs.reverse.dropWhile (fun c => c == '.' || c == 'g' || c == 'i' || c == 't')).reverse

/-! ## `sync_tasks.py`: URL parsing

`GitHubProjectSync._parse_github_url` runs
`re.search(r'github\.com[/:]([^/]+/[^/]+?)(\.git)?$', url)` and, failing that,
`re.search(r'git@github\.com:([^/]+/[^/]+?)(\.git)?$', url)`, returning
`match.group(1).rstrip('.git')`.

The tail pattern `([^/]+/[^/]+?)(\.git)?$` is compiled here by hand:

* `[^/]+` is greedy but must be followed by a literal `/`, and `/` cannot occur
  inside `[^/]+`; hence the first segment is exactly the run of non-`/`
  characters up to the first `/` (nonempty, else fail).
* After that `/`, `[^/]+?` is non-greedy and `(\.git)?$` must consume the rest;
  the remainder after the non-greedy group must be `""` or `".git"` and is
  `/`-free, so the whole tail is `/`-free, and the engine picks the smallest
  nonempty prefix: it keeps `".git"` out of the group exactly when the tail
  ends with `".git"` and has length ≥ 5.
* `re.search` tries start positions left to right, so the match anchors at the
  leftmost occurrence of the literal (`github.com` + separator) whose tail
  matches.
-/

/-- Match `([^/]+/[^/]+?)(\.git)?$` against `s`, returning group 1. -/
def matchOwnerRepo (s : List Char) : Option (List Char) :=
  let owner := s.takeWhile (fun c => c != '/')
  let rest := s.dropWhile (fun c => c != '/')
  match owner, rest with
  | [], _ => none
  | _, [] => none
  | o, _ :: t =>
    if t.isEmpty then none
    else if t.any (fun c => c == '/') then none
    else if (match t.reverse with
             | 't' :: 'i' :: 'g' :: '.' :: _ => true
             | _ => false) && decide (5 ≤ t.length) then
      some (o ++ '/' :: t.take (t.length - 4))
    else
      some (o ++ '/' :: t)

/-- One attempt of the HTTPS regex at the current start position:
literal `github.com`, a `/` or `:`, then the owner/repo tail. -/
def tryGithubAt (s : List Char) : Option (List Char) :=
  if ("github.com".toList).isPrefixOf s then
    match s.drop 10 with
    | c :: rest => if c == '/' || c == ':' then matchOwnerRepo rest else none
    | [] => none
  else none

/-- `re.search` for `github\.com[/:]([^/]+/[^/]+?)(\.git)?$`: scan start
positions left to right. -/
def searchGithub : List Char → Option (List Char)
  | [] => none
  | c :: cs =>
    match tryGithubAt (c :: cs) with
    | some g => some g
    | none => searchGithub cs

/-- One attempt of the SSH regex at the current start position:
literal `git@github.com:` then the owner/repo tail. -/
def trySshAt (s : List Char) : Option (List Char) :=
  if ("git@github.com:".toList).isPrefixOf s then
    matchOwnerRepo (s.drop 15)
  else none

/-- `re.search` for `git@github\.com:([^/]+/[^/]+?)(\.git)?$`. -/
def searchSsh : List Char → Option (List Char)
  | [] => none
  | c :: cs =>
    match trySshAt (c :: cs) with
    | some g => some g
    | none => searchSsh cs

/-- `GitHubProjectSync._parse_github_url`: try the HTTPS pattern, then the SSH
pattern; apply `.rstrip('.git')` to the captured group. -/
def parse_github_url (url : String) : Option String :=
  match searchGithub url.toList with
  | some g => some (String.mk (pyRstripGitSet g))
  | none =>
    match searchSsh url.toList with
    | some g => some (String.mk (pyRstripGitSet g))
    | none => none

/-! ## `sync_tasks.py`: the sync engine

`GitHubProjectSync.sync_tasks` shells out to `gh`; the external world is
modelled as an environment of oracle functions giving each call's result:
`check_gh_cli`, the parsed `origin` remote, `get_first_project`,
`create_issue` and `add_issue_to_project`. -/

namespace SyncScript

/-- A task record, i.e. the Python dict consumed by `sync_tasks`.
`title = none` models a dict without a usable `'title'` key
(`task.get('title')` returning `None`); `body`/`labels` model
`task.get('body', '')` and `task.get('labels', [])`. -/
structure Task where
  title : Option String
  body : String
  labels : List String
deriving DecidableEq

/-- An entry of `results['synced_tasks']`: `{'task': ..., 'issue_url': ...}`. -/
structure SyncedTask where
  task : Task
  issue_url : String
deriving DecidableEq

/-- An entry of `results['failed_tasks']`: `{'task': ..., 'error': ...}`, with
an optional `'issue_url'` key (present only in the created-but-not-linked
case). -/
structure FailedTask where
  task : Task
  error : String
  issue_url : Option String
deriving DecidableEq

/-- Oracle environment for the external `gh`/`git` calls made by
`GitHubProjectSync`. -/
structure GhEnv where
  /-- Result of `check_gh_cli()`. -/
  ghOk : Bool
  /-- Result of `get_origin_remote()` (already parsed to `owner/repo`). -/
  originRemote : Option String
  /-- Result of `get_first_project(repo)`: `projects[0].get('number')`. -/
  firstProject : String → Option Int
  /-- Result of `create_issue(repo, title, body, labels)`: the stripped
  stdout of the `gh issue create` call (which may be the empty string), or
  `none` on `CalledProcessError`. -/
  createIssue : String → String → String → List String → Option String
  /-- Result of `add_issue_to_project(project_number, issue_url, owner)`. -/
  addToProject : Int → String → String → Bool

/-- Python truthiness test `not x` for an optional string
(`None` and `''` are falsy). -/
def pyStrFalsy : Option String → Bool
  | none => true
  | some s => s == ""

/-- Python truthiness test `not x` for an optional integer
(`None` and `0` are falsy). -/
def pyIntFalsy : Option Int → Bool
  | none => true
  | some n => n == 0

/-- `self.repo.split('/')[0]`. -/
def splitOwner (repo : String) : String :=
  (repo.splitOn "/").headD ""

/-- `if not self.repo: self.repo = self.get_origin_remote()`. -/
def resolveRepo (e : GhEnv) (repo0 : Option String) : Option String :=
  if pyStrFalsy repo0 then e.originRemote else repo0

/-- `if not self.project_number: self.project_number = self.get_first_project(...)`. -/
def resolveProj (e : GhEnv) (proj0 : Option Int) (repo : String) : Option Int :=
  if pyIntFalsy proj0 then e.firstProject repo else proj0

/-- One iteration of the `for task in tasks` loop in `sync_tasks`.
The `if not issue_url:` test after `create_issue` is a Python truthiness
test: both `None` (a `CalledProcessError`) and an empty string (an empty
`result.stdout.strip()`) count as creation failure, and linking is never
attempted for them. -/
def syncStep (e : GhEnv) (repo : String) (proj : Int) (owner : String)
    (task : Task) : Sum SyncedTask FailedTask :=
  match task.title with
  | none => .inr { task := task, error := "No title provided", issue_url := none }
  | some title =>
    if title == "" then
      .inr { task := task, error := "No title provided", issue_url := none }
    else
      match e.createIssue repo title task.body task.labels with
      | none => .inr { task := task, error := "Failed to create issue", issue_url := none }
      | some url =>
        if url == "" then
          .inr { task := task, error := "Failed to create issue", issue_url := none }
        else if e.addToProject proj url owner then
          .inl { task := task, issue_url := url }
        else
          .inr { task := task,
                 error := "Issue created but failed to add to project",
                 issue_url := some url }

/-- The task loop of `sync_tasks`: accumulate `synced_tasks` and
`failed_tasks` in input order. -/
def syncLoop (e : GhEnv) (repo : String) (proj : Int) (owner : String) :
    List Task → List SyncedTask × List FailedTask
  | [] => ([], [])
  | t :: ts =>
    let r := syncLoop e repo proj owner ts
    match syncStep e repo proj owner t with
    | .inl s => (s :: r.1, r.2)
    | .inr f => (r.1, f :: r.2)

/-- The dict returned by `sync_tasks`: either the early
`{'success': False, 'error': ...}` form, or the full results dict
(whose `'success'` key is `True`). -/
inductive SyncResult where
  | err (msg : String)
  | ok (repo : String) (project_number : Int)
       (synced_tasks : List SyncedTask) (failed_tasks : List FailedTask)
deriving DecidableEq

/-- `GitHubProjectSync.sync_tasks(tasks)` with constructor arguments
`repo0 = self.repo`, `proj0 = self.project_number`. -/
def sync_tasks (e : GhEnv) (repo0 : Option String) (proj0 : Option Int)
    (tasks : List Task) : SyncResult :=
  if !e.ghOk then
    .err "gh CLI not installed or not authenticated. Run: gh auth login"
  else
    let repo1 := resolveRepo e repo0
    if pyStrFalsy repo1 then
      .err "Could not determine GitHub repository. Please specify --repo owner/repo"
    else
      let repo := repo1.getD ""
      let proj1 := resolveProj e proj0 repo
      if pyIntFalsy proj1 then
        .err ("No projects found for " ++ repo ++
              ". Please create a project or specify --project-number")
      else
        let proj := proj1.getD 0
        let owner := splitOwner repo
        let r := syncLoop e repo proj owner tasks
        .ok repo proj r.1 r.2

/-! ## `sync_tasks.py`: markdown checklist parsing

`parse_markdown_tasks` tests each line against
`re.match(r'^[\s]*[-*]\s+\[\s\]\s+', line)` and, on a match, removes that
prefix with `re.sub` and strips the remainder.  The pattern is compiled by
hand: each `\s*`/`\s+` is a maximal whitespace run (greedy, and backtracking
cannot help because the following literal is never a whitespace character). -/

/-- Match the prefix pattern `^[\s]*[-*]\s+\[\s\]\s+` against a line and
return the remainder after the matched prefix (i.e. the effect of the
`re.sub(..., '', line)` call), or `none` when the line does not match. -/
def taskLineRest (cs : List Char) : Option (List Char) :=
  match cs.dropWhile isPySpace with
  | [] => none
  | b :: cs2 =>
    if b == '-' || b == '*' then
      match cs2 with
      | [] => none
      | c2 :: _ =>
        if isPySpace c2 then
          match cs2.dropWhile isPySpace with
          | '[' :: w :: ']' :: cs4 =>
            if isPySpace w then
              match cs4 with
              | [] => none
              | c4 :: _ =>
                if isPySpace c4 then some (cs4.dropWhile isPySpace) else none
            else none
          | _ => none
        else none
    else none

/-- The dict `{'title': title}` appended by `parse_markdown_tasks` (and also
the dict built by `main` for each `--task` flag). -/
def mkTitleTask (title : String) : Task :=
  { title := some title, body := "", labels := [] }

/-- `parse_markdown_tasks(content)`. -/
def parse_markdown_tasks (content : String) : List Task :=
  (splitOnNl content.toList).filterMap fun line =>
    match taskLineRest line with
    | none => none
    | some rest =>
      let title := pyStripList rest
      if title.isEmpty then none else some (mkTitleTask (String.mk title))

/-! ## `sync_tasks.py`: `main`

Command-line arguments and I/O are modelled explicitly:

* `tasks_file = none` — flag absent; `some none` — flag given but the file is
  missing (`FileNotFoundError`); `some (some content)` — file content read;
* `task` — the (possibly empty) list of `--task` flags;
* `json_tasks = none` — flag absent; `some none` — `json.loads` raises
  `JSONDecodeError`; `some (some l)` — the parsed array of task dicts. -/

structure Args where
  repo : Option String
  project_number : Option Int
  tasks_file : Option (Option String)
  task : List String
  json_tasks : Option (Option (List Task))

/-- The combined task list gathered by `main` from the three sources, in
source order (file, `--task` flags, JSON). -/
def gatherTasks (a : Args) : List Task :=
  (match a.tasks_file with
   | some (some content) => parse_markdown_tasks content
   | _ => [])
  ++ a.task.map mkTitleTask
  ++ (match a.json_tasks with
      | some (some l) => l
      | _ => [])

/-- The exit status of `main()`: `sys.exit(1)` on a missing tasks file, on
malformed `--json-tasks`, on an empty gathered task list, or on a top-level
`sync_tasks` failure (`results['success']` false); `sys.exit(2)` when
`results['failed_tasks']` is nonempty; otherwise a normal exit (status 0). -/
def mainExit (e : GhEnv) (a : Args) : Nat :=
  if a.tasks_file = some none then 1
  else if a.json_tasks = some none then 1
  else if gatherTasks a = [] then 1
  else
    match sync_tasks e a.repo a.project_number (gatherTasks a) with
    | .err _ => 1
    | .ok _ _ _ failed => if failed = [] then 0 else 2

end SyncScript

/-! ## `build_skills.py`

The filesystem is modelled as a list of immediate entries of the root
directory; each entry records its name, whether it is a directory, and the
content of its `SKILL.md` when such a readable file is present.  Warnings and
errors written to `stderr` are modelled as returned lists of strings, and
`shutil.make_archive` as an oracle that either succeeds or raises with a
message. -/

namespace BuildScript

/-- Minimal non-greedy search for the first occurrence of `"\n---"`:
`splitAtMarker cs = some pre` when `cs = pre ++ "\n---" ++ _` with `pre` the
shortest such prefix (the `(.*?)` group of `^---\n(.*?)\n---` in DOTALL
mode). -/
def splitAtMarker : List Char → Option (List Char)
  | '\n' :: '-' :: '-' :: '-' :: _ => some []
  | c :: cs => (splitAtMarker cs).map (c :: ·)
  | [] => none

/-- Python `value[1:-1]` used for quote removal. -/
def dropEnds (cs : List Char) : List Char :=
  (cs.drop 1).dropLast

/-- Strip a matching pair of surrounding double quotes, else a matching pair
of surrounding single quotes, else return the value unchanged. -/
def dequote (v : String) : String :=
  let cs := v.toList
  if cs.head? == some '"' && cs.getLast? == some '"' then
    String.mk (dropEnds cs)
  else if cs.head? == some '\'' && cs.getLast? == some '\'' then
    String.mk (dropEnds cs)
  else v

/-- `metadata[key] = value` on an insertion-ordered dict modelled as an
association list with unique keys: replace in place, else append. -/
def yamlInsert (m : List (String × String)) (k v : String) :
    List (String × String) :=
  if m.any (fun p => p.1 == k) then
    m.map (fun p => if p.1 == k then (k, v) else p)
  else m ++ [(k, v)]

/-- One line of the YAML block: strip; skip blanks and `#` comments; split on
the first `:` into stripped key and stripped, dequoted value. -/
def parseYamlLine (m : List (String × String)) (line : List Char) :
    List (String × String) :=
  let l := pyStripList line
  if l.isEmpty then m
  else if l.head? == some '#' then m
  else if l.any (fun c => c == ':') then
    let key := pyStrip (String.mk (l.takeWhile (fun c => c != ':')))
    let value := dequote (pyStrip (String.mk ((l.dropWhile (fun c => c != ':')).drop 1)))
    yamlInsert m key value
  else m

/-- `extract_yaml_preamble`: match `^---\n(.*?)\n---` (DOTALL) against the
file content and fold the block's lines into a metadata dict; an unmatched
preamble yields the empty dict. -/
def extract_yaml_preamble (content : String) : List (String × String) :=
  match content.toList with
  | '-' :: '-' :: '-' :: '\n' :: rest =>
    match splitAtMarker rest with
    | some body => (splitOnNl body).foldl parseYamlLine []
    | none => []
  | _ => []

/-- `metadata.get(key)` on the modelled dict. -/
def getMeta (m : List (String × String)) (k : String) : Option String :=
  (m.find? (fun p => p.1 == k)).map (·.2)

/-- A skill record as built by `find_skills`:
`{'name': ..., 'description': ..., 'path': ...}`. -/
structure Skill where
  name : String
  description : String
  path : String
deriving DecidableEq

/-- An immediate entry of the scanned root directory.  `skillMd` is the
content of the entry's `SKILL.md` when that file exists. -/
structure DirEntry where
  name : String
  isDir : Bool
  skillMd : Option String
deriving DecidableEq

/-- The fixed exclusion set of `find_skills`. -/
def excludedDirs : List String := ["__pycache__", ".git", "venv", "env"]

/-- The skill record contributed by one directory entry, if any: the body of
the `for entry in os.listdir(root_dir)` loop on its success path. -/
def skillOf (root : String) (e : DirEntry) : Option Skill :=
  if !e.isDir then none
  else if e.name.toList.head? == some '.' then none
  else if excludedDirs.contains e.name then none
  else
    match e.skillMd with
    | none => none
    | some content =>
      match getMeta (extract_yaml_preamble content) "name" with
      | none => none
      | some nm =>
        some { name := nm,
               description :=
                 (getMeta (extract_yaml_preamble content) "description").getD "",
               path := root ++ "/" ++ e.name }

/-- The warning emitted by one directory entry, if any: the
`"Warning: ... missing 'name' field"` branch of the loop. -/
def warnOf (root : String) (e : DirEntry) : Option String :=
  if !e.isDir then none
  else if e.name.toList.head? == some '.' then none
  else if excludedDirs.contains e.name then none
  else
    match e.skillMd with
    | none => none
    | some content =>
      match getMeta (extract_yaml_preamble content) "name" with
      | none => some ("Warning: " ++ root ++ "/" ++ e.name ++
                      "/SKILL.md missing \x27name\x27 field")
      | some _ => none

/-- Python's `<=` on `str`: lexicographic comparison of code points. -/
def charListLe : List Char → List Char → Bool
  | [], _ => true
  | _ :: _, [] => false
  | a :: as, b :: bs =>
    if a.val.toNat < b.val.toNat then true
    else if b.val.toNat < a.val.toNat then false
    else charListLe as bs

/-- The comparison used by `sorted(skills, key=lambda s: s['name'])`. -/
def skillNameLe (a b : Skill) : Bool :=
  charListLe a.name.toList b.name.toList

/-- Stable insertion of a skill into an already sorted list: the new element
goes in front of the first element whose name is `≥` its own, so elements
with equal names keep their relative order (as Python's stable `sorted`
does, when combined with `foldr`). -/
def insertSkill (a : Skill) : List Skill → List Skill
  | [] => [a]
  | t :: ts => if skillNameLe a t then a :: t :: ts else t :: insertSkill a ts

/-- `sorted(skills, key=lambda s: s['name'])`: a stable ascending sort on the
`name` key. -/
def sortSkills (l : List Skill) : List Skill :=
  l.foldr insertSkill []

/-- `find_skills(root_dir)`: scan the immediate entries (in listing order),
collect the skill records, sort them by name (`sorted` is a stable sort on
the `name` key), and return them together with the warnings written to
`stderr`. -/
def find_skills (root : String) (entries : List DirEntry) :
    List Skill × List String :=
  (sortSkills (entries.filterMap (skillOf root)),
   entries.filterMap (warnOf root))

/-- `create_skill_zips(root_dir, skills)` with `shutil.make_archive` modelled
by the oracle `arch` (`none` = success, `some msg` = raised exception).
Returns the function's boolean result, the list of skills for which an
archive build was attempted (in order), and the error lines written to
`stderr`.  On the first failure the remaining batch is abandoned. -/
def create_skill_zips (arch : Skill → Option String) :
    List Skill → Bool × List Skill × List String
  | [] => (true, [], [])
  | s :: rest =>
    match arch s with
    | none =>
      let r := create_skill_zips arch rest
      (r.1, s :: r.2.1, r.2.2)
    | some msg =>
      (false, [s], ["Error creating zip for " ++ s.name ++ ": " ++ msg])

/-- `generate_readme(root_dir, skills)`: pure rendering of the listing
document.  (The Python function receives `root_dir` but never uses it.) -/
def generate_readme (root_dir : String) (skills : List Skill) : String :=
  let lines :=
    ["# Claude Skills\n",
     "A collection of Claude Code skills.\n",
     "## Available Skills\n"]
    ++ skills.flatMap (fun s =>
        ["### " ++ s.name ++ "\n"]
        ++ (if s.description == "" then [] else [s.description ++ "\n"])
        ++ ["- **File**: `" ++ s.name ++ ".zip`\n", ""])
    ++ ["## Installation\n",
        "Download any of the `.zip` files above to install a skill.\n"]
  String.intercalate "\n" lines

/-- The exit status of `build_skills.main()`: `0` when no skills are found
(plain `return`) or when every step succeeds; `sys.exit(1)` when
`create_skill_zips` reports failure. -/
def build_main (root : String) (entries : List DirEntry)
    (arch : Skill → Option String) : Nat :=
  let skills := (find_skills root entries).1
  if skills.isEmpty then 0
  else if (create_skill_zips arch skills).1 then 0 else 1

end BuildScript

/-! ## Specification-side definitions

These two definitions follow the WORDS of the specification (not the code);
they exist to be compared with the embedded code above. -/

/-- Specification-side description of an unchecked checklist line (spec §6:
"lines matching an unchecked list-item pattern (`-` or `*` bullet followed by
`[ ]` followed by text) are extracted as task titles", titles trimmed):
optional leading whitespace, a `-` or `*` bullet, whitespace, an open bracket,
a single whitespace character, a close bracket, whitespace, then text whose
trimmed form is the (nonempty) title. -/
inductive UncheckedItem : List Char → List Char → Prop where
  | mk (ws1 : List Char) (b : Char) (ws2 : List Char) (w : Char)
       (ws3 : List Char) (text : List Char) :
      (∀ c ∈ ws1, isPySpace c = true) →
      (b = '-' ∨ b = '*') →
      ws2 ≠ [] → (∀ c ∈ ws2, isPySpace c = true) →
      isPySpace w = true →
      ws3 ≠ [] → (∀ c ∈ ws3, isPySpace c = true) →
      pyStripList text ≠ [] →
      UncheckedItem (ws1 ++ (b :: (ws2 ++ ('[' :: (w :: (']' :: (ws3 ++ text)))))))
        (pyStripList text)

namespace SyncScript

/-- Modelled from the claim C3 / spec §6 exit-code contract (NOT from the
code): exit `1` exactly on malformed JSON, a missing tool or unresolvable
repository/project (the spec's resolution order: explicit argument first,
else the origin remote; explicit project number first, else the first project
board), or no tasks supplied; exit `0` when everything succeeds; exit `2`
when some individual task fails.  The spec text says nothing about an
unreadable tasks file. -/
def c3SpecExit (e : GhEnv) (a : Args) : Nat :=
  let tasks := gatherTasks a
  let repoOpt : Option String :=
    match a.repo with
    | some r => some r
    | none => e.originRemote
  let projOpt : Option Int :=
    match a.project_number with
    | some p => some p
    | none =>
      match repoOpt with
      | some r => e.firstProject r
      | none => none
  if a.json_tasks = some none then 1
  else if e.ghOk = false then 1
  else
    match repoOpt, projOpt with
    | some r, some p =>
      if tasks = [] then 1
      else if (syncLoop e r p (splitOwner r) tasks).2 = [] then 0 else 2
    | _, _ => 1

end SyncScript

/-! ## Claim C1 — URL parsing -/

/-- **C1** (code bug): the claim states that for every owner and repository
name both URL forms resolve to exactly `owner/repo` with an optional trailing
`.git` suffix stripped.  The quoted examples do hold (first two conjuncts),
but the final `.rstrip('.git')` in `_parse_github_url` removes a trailing
run of the CHARACTERS `.`, `g`, `i`, `t` rather than the suffix `.git`
(which the regex has already discarded), so repository names ending in any
of those characters are truncated: `acme/parsing.git` resolves to
`acme/parsin` and `acme/dig` (no suffix at all) to `acme/d`. -/
theorem c1_parse_github_url_examples_and_bug :
    parse_github_url "https://github.com/acme/widgets.git" = some "acme/widgets"
    ∧ parse_github_url "https://github.com/acme/widgets" = some "acme/widgets"
    ∧ parse_github_url "git@github.com:acme/widgets.git" = some "acme/widgets"
    ∧ parse_github_url "git@github.com:acme/widgets" = some "acme/widgets"
    ∧ parse_github_url "https://github.com/acme/parsing.git" = some "acme/parsin"
    ∧ parse_github_url "https://github.com/acme/dig" = some "acme/d" := by
  refine ⟨?_, ?_, ?_, ?_, ?_, ?_⟩ <;> rfl

/-! ## Claim C9 — falsiness of explicit `0` / `""` arguments -/

/-- **C9** (confirmed): the absence checks in `sync_tasks` are Python
truthiness tests, so an explicitly supplied project number `0` behaves
exactly like an absent one (auto-resolution is still attempted), and an
explicitly supplied empty repository string behaves exactly like an absent
one.  The third conjunct exhibits the auto-resolution concretely: with
project number `0` supplied and a first project board numbered `7`, the
result uses `7`, not the given `0`. -/
theorem c9_zero_project_number_is_absent
    (e : SyncScript.GhEnv) (repo0 : Option String) (proj0 : Option Int)
    (tasks : List SyncScript.Task) :
    SyncScript.sync_tasks e repo0 (some 0) tasks
      = SyncScript.sync_tasks e repo0 none tasks
    ∧ SyncScript.sync_tasks e (some "") proj0 tasks
      = SyncScript.sync_tasks e none proj0 tasks
    ∧ SyncScript.sync_tasks
        ⟨true, none, fun _ => some 7, fun _ _ _ _ => none, fun _ _ _ => true⟩
        (some "acme/widgets") (some 0) []
      = .ok "acme/widgets" 7 [] [] := by
  refine ⟨rfl, rfl, rfl⟩

/-! ## Claim C8 — listing generation is pure and deterministic -/

/-- The per-skill block of `generate_readme` depends only on the skill's
`name` and `description`. -/
def readmeBlock (s : BuildScript.Skill) : List String :=
  ["### " ++ s.name ++ "\n"]
  ++ (if s.description == "" then [] else [s.description ++ "\n"])
  ++ ["- **File**: `" ++ s.name ++ ".zip`\n", ""]

theorem readmeBlock_congr (a b : BuildScript.Skill)
    (hn : a.name = b.name) (hd : a.description = b.description) :
    readmeBlock a = readmeBlock b := by
  simp [readmeBlock, hn, hd]

theorem flatMap_readmeBlock_congr :
    ∀ (l1 l2 : List BuildScript.Skill),
      l1.map (fun s => (s.name, s.description))
        = l2.map (fun s => (s.name, s.description)) →
      l1.flatMap readmeBlock = l2.flatMap readmeBlock
  | [], [], _ => rfl
  | [], _ :: _, h => by simp at h
  | _ :: _, [], h => by simp at h
  | a :: l1, b :: l2, h => by
    simp only [List.map_cons, List.cons.injEq, Prod.mk.injEq] at h
    simp only [List.flatMap_cons,
      flatMap_readmeBlock_congr l1 l2 h.2,
      readmeBlock_congr a b h.1.1 h.1.2]

/-- **C8** (confirmed): listing generation is a deterministic pure function
of the input skill sequence.  As embedded, `generate_readme` is a total Lean
function (no effects); moreover its output does not depend on the `root_dir`
argument or on the skills' `path` fields at all: any two skill sequences
agreeing on names and descriptions produce byte-identical documents. -/
theorem c8_generate_readme_deterministic
    (r1 r2 : String) (l1 l2 : List BuildScript.Skill)
    (h : l1.map (fun s => (s.name, s.description))
           = l2.map (fun s => (s.name, s.description))) :
    BuildScript.generate_readme r1 l1 = BuildScript.generate_readme r2 l2 := by
  have hb : l1.flatMap readmeBlock = l2.flatMap readmeBlock :=
    flatMap_readmeBlock_congr l1 l2 h
  simp only [BuildScript.generate_readme]
  have : ∀ l : List BuildScript.Skill,
      l.flatMap (fun s =>
        ["### " ++ s.name ++ "\n"]
        ++ (if s.description == "" then [] else [s.description ++ "\n"])
        ++ ["- **File**: `" ++ s.name ++ ".zip`\n", ""]) = l.flatMap readmeBlock :=
    fun l => rfl
  rw [this l1, this l2, hb]

/-- Witness for C8: two runs on skill lists that differ only in `path` (and
with different root directories) yield byte-identical documents. -/
theorem c8_generate_readme_deterministic_witness :
    BuildScript.generate_readme "/repoA" [⟨"sk", "dsc", "/repoA/sk"⟩]
      = BuildScript.generate_readme "/repoB" [⟨"sk", "dsc", "/other/sk"⟩] :=
  c8_generate_readme_deterministic "/repoA" "/repoB"
    [⟨"sk", "dsc", "/repoA/sk"⟩] [⟨"sk", "dsc", "/other/sk"⟩] rfl

/-! ## Helper lemmas about the sync loop -/

namespace SyncScript

/-- The per-task outcome as a Boolean: does `syncStep` put the task in
`synced_tasks`? -/
def stepSyncedB (e : GhEnv) (repo : String) (proj : Int) (owner : String)
    (t : Task) : Bool :=
  match syncStep e repo proj owner t with
  | .inl _ => true
  | .inr _ => false

theorem syncStep_inl_task {e : GhEnv} {repo : String} {proj : Int}
    {owner : String} {t : Task} {s : SyncedTask}
    (h : syncStep e repo proj owner t = .inl s) : s.task = t := by
  unfold syncStep at h
  split at h
  · exact absurd h (by simp)
  · split at h
    · exact absurd h (by simp)
    · split at h
      · exact absurd h (by simp)
      · split at h
        · exact absurd h (by simp)
        · split at h
          · cases h; rfl
          · exact absurd h (by simp)

theorem syncStep_inr_task {e : GhEnv} {repo : String} {proj : Int}
    {owner : String} {t : Task} {f : FailedTask}
    (h : syncStep e repo proj owner t = .inr f) : f.task = t := by
  unfold syncStep at h
  split at h
  · cases h; rfl
  · split at h
    · cases h; rfl
    · split at h
      · cases h; rfl
      · split at h
        · cases h; rfl
        · split at h
          · exact absurd h (by simp)
          · cases h; rfl

theorem syncLoop_fst_map (e : GhEnv) (repo : String) (proj : Int)
    (owner : String) : ∀ ts : List Task,
    ((syncLoop e repo proj owner ts).1.map (·.task))
      = ts.filter (stepSyncedB e repo proj owner)
  | [] => rfl
  | t :: ts => by
    have ih := syncLoop_fst_map e repo proj owner ts
    simp only [syncLoop, List.filter_cons]
    rcases hst : syncStep e repo proj owner t with s | f
    · have ht : s.task = t := syncStep_inl_task hst
      simp [stepSyncedB, hst, ih, ht]
    · simp [stepSyncedB, hst, ih]

theorem syncLoop_snd_map (e : GhEnv) (repo : String) (proj : Int)
    (owner : String) : ∀ ts : List Task,
    ((syncLoop e repo proj owner ts).2.map (·.task))
      = ts.filter (fun t => !stepSyncedB e repo proj owner t)
  | [] => rfl
  | t :: ts => by
    have ih := syncLoop_snd_map e repo proj owner ts
    simp only [syncLoop, List.filter_cons]
    rcases hst : syncStep e repo proj owner t with s | f
    · simp [stepSyncedB, hst, ih]
    · have ht : f.task = t := syncStep_inr_task hst
      simp [stepSyncedB, hst, ih, ht]

theorem syncLoop_length (e : GhEnv) (repo : String) (proj : Int)
    (owner : String) : ∀ ts : List Task,
    (syncLoop e repo proj owner ts).1.length
      + (syncLoop e repo proj owner ts).2.length = ts.length
  | [] => rfl
  | t :: ts => by
    have ih := syncLoop_length e repo proj owner ts
    simp only [syncLoop]
    rcases hst : syncStep e repo proj owner t with s | f <;>
      simpa [hst] using by omega

/-- `syncLoop` distributes over append, preserving order on both sides. -/
theorem syncLoop_append (e : GhEnv) (repo : String) (proj : Int)
    (owner : String) : ∀ l1 l2 : List Task,
    syncLoop e repo proj owner (l1 ++ l2)
      = ((syncLoop e repo proj owner l1).1 ++ (syncLoop e repo proj owner l2).1,
         (syncLoop e repo proj owner l1).2 ++ (syncLoop e repo proj owner l2).2)
  | [], l2 => by simp [syncLoop]
  | t :: l1, l2 => by
    have ih := syncLoop_append e repo proj owner l1 l2
    simp only [List.cons_append, syncLoop, ih]
    rcases hst : syncStep e repo proj owner t with s | f <;> simp [hst, ih]

/-- A `.ok` result of `sync_tasks` comes from `syncLoop` at the resolved
repository, project and owner, and the top-level preconditions held. -/
theorem sync_tasks_ok {e : GhEnv} {repo0 : Option String} {proj0 : Option Int}
    {tasks : List Task} {r : String} {p : Int}
    {synced : List SyncedTask} {failed : List FailedTask}
    (h : sync_tasks e repo0 proj0 tasks = .ok r p synced failed) :
    e.ghOk = true
    ∧ resolveRepo e repo0 = some r
    ∧ resolveProj e proj0 r = some p
    ∧ (synced, failed) = syncLoop e r p (splitOwner r) tasks := by
  simp only [sync_tasks] at h
  split at h
  · exact absurd h (by simp)
  · next hgh =>
    split at h
    · exact absurd h (by simp)
    · next hrf =>
      split at h
      · exact absurd h (by simp)
      · next hpf =>
        rcases hr : resolveRepo e repo0 with _ | rv
        · rw [hr] at hrf; simp [pyStrFalsy] at hrf
        · rw [hr] at hrf hpf h
          simp only [Option.getD_some] at hpf h
          rcases hp : resolveProj e proj0 rv with _ | pv
          · rw [hp] at hpf; simp [pyIntFalsy] at hpf
          · rw [hp] at h
            simp only [Option.getD_some, SyncResult.ok.injEq] at h
            obtain ⟨h1, h2, h3, h4⟩ := h
            subst h1; subst h2
            refine ⟨by simpa using hgh, ?_, ?_, by rw [← h3, ← h4]⟩ <;>
              simp [hr, hp]

end SyncScript

/-! ## Claim C10 — sync results partition the input tasks -/

theorem count_filter_split {α : Type} [DecidableEq α] (p : α → Bool) (a : α) :
    ∀ l : List α,
      (l.filter p).count a + (l.filter (fun x => !p x)).count a = l.count a
  | [] => rfl
  | x :: l => by
    have ih := count_filter_split p a l
    by_cases hx : p x = true <;>
      simp [List.filter_cons, hx, List.count_cons] <;> omega

/-- **C10** (confirmed): whenever `sync_tasks` gets past the top-level
preconditions (returns the full results dict), the `synced_tasks` and
`failed_tasks` lists partition the input: their lengths sum to the number of
input tasks, each list (projected to its `task` field) is an in-order
sublist of the input, and every task occurs in the two lists jointly exactly
as often as in the input. -/
theorem c10_sync_results_partition_input
    (e : SyncScript.GhEnv) (repo0 : Option String) (proj0 : Option Int)
    (tasks : List SyncScript.Task) (r : String) (p : Int)
    (synced : List SyncScript.SyncedTask)
    (failed : List SyncScript.FailedTask)
    (h : SyncScript.sync_tasks e repo0 proj0 tasks = .ok r p synced failed) :
    synced.length + failed.length = tasks.length
    ∧ (synced.map (·.task)).Sublist tasks
    ∧ (failed.map (·.task)).Sublist tasks
    ∧ ∀ t, (synced.map (·.task)).count t + (failed.map (·.task)).count t
        = tasks.count t := by
  obtain ⟨-, -, -, hloop⟩ := SyncScript.sync_tasks_ok h
  have hs : synced = (SyncScript.syncLoop e r p (SyncScript.splitOwner r) tasks).1 := by
    rw [← hloop]
  have hf : failed = (SyncScript.syncLoop e r p (SyncScript.splitOwner r) tasks).2 := by
    rw [← hloop]
  subst hs; subst hf
  refine ⟨SyncScript.syncLoop_length e r p (SyncScript.splitOwner r) tasks, ?_, ?_, ?_⟩
  · rw [SyncScript.syncLoop_fst_map]; exact List.filter_sublist tasks
  · rw [SyncScript.syncLoop_snd_map]; exact List.filter_sublist tasks
  · intro t
    rw [SyncScript.syncLoop_fst_map, SyncScript.syncLoop_snd_map]
    exact count_filter_split _ t tasks

/-- Witness for C10 at a concrete run: two tasks, one synced and one failed. -/
theorem c10_sync_results_partition_input_witness :
    [SyncScript.SyncedTask.mk (SyncScript.mkTitleTask "a") "u"].length
      + [SyncScript.FailedTask.mk ⟨none, "", []⟩ "No title provided" none].length
      = [SyncScript.mkTitleTask "a", ⟨none, "", []⟩].length
    ∧ ([SyncScript.SyncedTask.mk (SyncScript.mkTitleTask "a") "u"].map (·.task)).Sublist
        [SyncScript.mkTitleTask "a", ⟨none, "", []⟩]
    ∧ ([SyncScript.FailedTask.mk ⟨none, "", []⟩ "No title provided" none].map (·.task)).Sublist
        [SyncScript.mkTitleTask "a", ⟨none, "", []⟩]
    ∧ ∀ t, ([SyncScript.SyncedTask.mk (SyncScript.mkTitleTask "a") "u"].map (·.task)).count t
        + ([SyncScript.FailedTask.mk ⟨none, "", []⟩ "No title provided" none].map (·.task)).count t
        = [SyncScript.mkTitleTask "a", ⟨none, "", []⟩].count t :=
  c10_sync_results_partition_input
    ⟨true, none, fun _ => some 3, fun _ _ _ _ => some "u", fun _ _ _ => true⟩
    (some "acme/x") none [SyncScript.mkTitleTask "a", ⟨none, "", []⟩]
    "acme/x" 3 _ _ rfl

/-! ## Claim C2 — linking failure after issue creation -/

namespace SyncScript

/-- `syncStep` outcome when the issue is created (a truthy URL is returned,
i.e. creation succeeds in the program's `if not issue_url:` sense) but
linking fails. -/
theorem syncStep_link_failure {e : GhEnv} {repo : String} {proj : Int}
    {owner : String} {t : Task} {s url : String}
    (ht : t.title = some s) (hs : s ≠ "")
    (hc : e.createIssue repo s t.body t.labels = some url) (hu : url ≠ "")
    (ha : e.addToProject proj url owner = false) :
    syncStep e repo proj owner t
      = .inr { task := t,
               error := "Issue created but failed to add to project",
               issue_url := some url } := by
  have hs' : (s == "") = false := by simp [hs]
  have hu' : (url == "") = false := by simp [hu]
  simp [syncStep, ht, hs', hc, hu', ha]

/-- `syncStep` outcome on a falsy (absent or empty) title. -/
theorem syncStep_no_title {e : GhEnv} {repo : String} {proj : Int}
    {owner : String} {t : Task}
    (h : t.title = none ∨ t.title = some "") :
    syncStep e repo proj owner t
      = .inr { task := t, error := "No title provided", issue_url := none } := by
  rcases h with h | h <;> simp [syncStep, h]

end SyncScript

/-- **C2** (confirmed): when issue creation succeeds for a task — i.e. a
truthy (nonempty) URL is returned, which is what the program's
`if not issue_url:` test treats as success — but the project-linking call
fails, `sync_tasks` records that task in `failed_tasks` with the
distinguished error `"Issue created but failed to add to project"`,
retaining the created issue's URL in the failure record (no deletion
operation exists in `sync_tasks` — the created issue's reference survives
into the output), and the remaining tasks of the batch (`l2`) are still
processed, in order. -/
theorem c2_link_failure_is_recorded_partial_failure
    (e : SyncScript.GhEnv) (r : String) (p : Int)
    (l1 l2 : List SyncScript.Task) (t : SyncScript.Task) (s url : String)
    (hgh : e.ghOk = true) (hr : r ≠ "") (hp : p ≠ 0)
    (ht : t.title = some s) (hs : s ≠ "")
    (hc : e.createIssue r s t.body t.labels = some url) (hu : url ≠ "")
    (ha : e.addToProject p url (SyncScript.splitOwner r) = false) :
    SyncScript.sync_tasks e (some r) (some p) (l1 ++ t :: l2)
      = .ok r p
          ((SyncScript.syncLoop e r p (SyncScript.splitOwner r) l1).1
            ++ (SyncScript.syncLoop e r p (SyncScript.splitOwner r) l2).1)
          ((SyncScript.syncLoop e r p (SyncScript.splitOwner r) l1).2
            ++ { task := t,
                 error := "Issue created but failed to add to project",
                 issue_url := some url }
              :: (SyncScript.syncLoop e r p (SyncScript.splitOwner r) l2).2) := by
  have hr' : (r == "") = false := by simp [hr]
  have hp' : (p == 0) = false := by simp [hp]
  have hmid : SyncScript.syncLoop e r p (SyncScript.splitOwner r) (t :: l2)
      = ((SyncScript.syncLoop e r p (SyncScript.splitOwner r) l2).1,
         { task := t,
           error := "Issue created but failed to add to project",
           issue_url := some url }
           :: (SyncScript.syncLoop e r p (SyncScript.splitOwner r) l2).2) := by
    simp [SyncScript.syncLoop, SyncScript.syncStep_link_failure ht hs hc hu ha]
  simp [SyncScript.sync_tasks, SyncScript.resolveRepo, SyncScript.resolveProj,
    SyncScript.pyStrFalsy, SyncScript.pyIntFalsy, hgh, hr', hp',
    SyncScript.syncLoop_append e r p (SyncScript.splitOwner r) l1 (t :: l2), hmid]

/-- Witness for C2: a concrete batch `[t, b]` where `t`'s issue is created
(`"URL"`) but linking fails; `t` lands in `failed_tasks` with the
distinguished reason and the URL, and `b` is still synced. -/
theorem c2_link_failure_is_recorded_partial_failure_witness :
    SyncScript.sync_tasks
      ⟨true, none, fun _ => some 1,
       fun _ _ _ _ => some "URL", fun _ _ _ => false⟩
      (some "acme/x") (some 5)
      ([] ++ SyncScript.mkTitleTask "a" :: [SyncScript.mkTitleTask "b"])
      = .ok "acme/x" 5
          ((SyncScript.syncLoop
              ⟨true, none, fun _ => some 1,
               fun _ _ _ _ => some "URL", fun _ _ _ => false⟩
              "acme/x" 5 (SyncScript.splitOwner "acme/x") []).1
            ++ (SyncScript.syncLoop
                  ⟨true, none, fun _ => some 1,
                   fun _ _ _ _ => some "URL", fun _ _ _ => false⟩
                  "acme/x" 5 (SyncScript.splitOwner "acme/x")
                  [SyncScript.mkTitleTask "b"]).1)
          ((SyncScript.syncLoop
              ⟨true, none, fun _ => some 1,
               fun _ _ _ _ => some "URL", fun _ _ _ => false⟩
              "acme/x" 5 (SyncScript.splitOwner "acme/x") []).2
            ++ { task := SyncScript.mkTitleTask "a",
                 error := "Issue created but failed to add to project",
                 issue_url := some "URL" }
              :: (SyncScript.syncLoop
                    ⟨true, none, fun _ => some 1,
                     fun _ _ _ _ => some "URL", fun _ _ _ => false⟩
                    "acme/x" 5 (SyncScript.splitOwner "acme/x")
                    [SyncScript.mkTitleTask "b"]).2) :=
  c2_link_failure_is_recorded_partial_failure
    ⟨true, none, fun _ => some 1, fun _ _ _ _ => some "URL", fun _ _ _ => false⟩
    "acme/x" 5 [] [SyncScript.mkTitleTask "b"] (SyncScript.mkTitleTask "a")
    "a" "URL" rfl (by decide) (by decide) rfl (by decide) rfl (by decide) rfl

/-! ## Claim C4 — empty/absent titles fail without aborting the batch -/

/-- **C4** (confirmed): a task whose title is absent or empty is recorded in
`failed_tasks` with the error `"No title provided"` while every other task
of the batch is still processed (first conjunct: the records of `l1` and
`l2` are unaffected, in order).  Second conjunct: concretely for a
two-element batch `[t1, t2]` with `t1` title-less and `t2` valid, when the
creation attempt for `t2` returns a truthy URL (success in the program's
`if not issue_url:` sense) and linking succeeds, the result is exactly one
failed task (reason `"No title provided"`) and the created URL for `t2` in
`synced_tasks`. -/
theorem c4_titleless_tasks_fail_without_aborting
    (e : SyncScript.GhEnv) (r : String) (p : Int) (o : String)
    (l1 l2 : List SyncScript.Task) (t1 t2 : SyncScript.Task) (s url : String)
    (h1 : t1.title = none ∨ t1.title = some "") :
    SyncScript.syncLoop e r p o (l1 ++ t1 :: l2)
      = ((SyncScript.syncLoop e r p o l1).1 ++ (SyncScript.syncLoop e r p o l2).1,
         (SyncScript.syncLoop e r p o l1).2
           ++ { task := t1, error := "No title provided", issue_url := none }
             :: (SyncScript.syncLoop e r p o l2).2)
    ∧ (t2.title = some s → s ≠ "" →
       e.createIssue r s t2.body t2.labels = some url → url ≠ "" →
       e.addToProject p url o = true →
       SyncScript.syncLoop e r p o [t1, t2]
         = ([{ task := t2, issue_url := url }],
            [{ task := t1, error := "No title provided", issue_url := none }])) := by
  constructor
  · have hmid : SyncScript.syncLoop e r p o (t1 :: l2)
        = ((SyncScript.syncLoop e r p o l2).1,
           { task := t1, error := "No title provided", issue_url := none }
             :: (SyncScript.syncLoop e r p o l2).2) := by
      simp [SyncScript.syncLoop, SyncScript.syncStep_no_title h1]
    simp [SyncScript.syncLoop_append e r p o l1 (t1 :: l2), hmid]
  · intro ht2 hs hc hu ha
    have hs' : (s == "") = false := by simp [hs]
    have hu' : (url == "") = false := by simp [hu]
    have h2 : SyncScript.syncStep e r p o t2 = .inl { task := t2, issue_url := url } := by
      simp [SyncScript.syncStep, ht2, hs', hc, hu', ha]
    simp [SyncScript.syncLoop, SyncScript.syncStep_no_title h1, h2]

/-- Witness for C4: one empty-title entry and one valid entry yield exactly
one failed task and a synced issue for the valid one. -/
theorem c4_titleless_tasks_fail_without_aborting_witness :
    (SyncScript.syncLoop
        ⟨true, none, fun _ => some 1, fun _ _ _ _ => some "URL", fun _ _ _ => true⟩
        "acme/x" 1 "acme"
        ([] ++ (⟨some "", "", []⟩ : SyncScript.Task) :: [SyncScript.mkTitleTask "valid"])
      = ((SyncScript.syncLoop
            ⟨true, none, fun _ => some 1, fun _ _ _ _ => some "URL", fun _ _ _ => true⟩
            "acme/x" 1 "acme" []).1
          ++ (SyncScript.syncLoop
                ⟨true, none, fun _ => some 1, fun _ _ _ _ => some "URL", fun _ _ _ => true⟩
                "acme/x" 1 "acme" [SyncScript.mkTitleTask "valid"]).1,
         (SyncScript.syncLoop
            ⟨true, none, fun _ => some 1, fun _ _ _ _ => some "URL", fun _ _ _ => true⟩
            "acme/x" 1 "acme" []).2
          ++ { task := (⟨some "", "", []⟩ : SyncScript.Task),
               error := "No title provided", issue_url := none }
            :: (SyncScript.syncLoop
                  ⟨true, none, fun _ => some 1, fun _ _ _ _ => some "URL", fun _ _ _ => true⟩
                  "acme/x" 1 "acme" [SyncScript.mkTitleTask "valid"]).2))
    ∧ SyncScript.syncLoop
        ⟨true, none, fun _ => some 1, fun _ _ _ _ => some "URL", fun _ _ _ => true⟩
        "acme/x" 1 "acme" [⟨some "", "", []⟩, SyncScript.mkTitleTask "valid"]
      = ([{ task := SyncScript.mkTitleTask "valid", issue_url := "URL" }],
         [{ task := (⟨some "", "", []⟩ : SyncScript.Task),
            error := "No title provided", issue_url := none }]) := by
  have h := c4_titleless_tasks_fail_without_aborting
    ⟨true, none, fun _ => some 1, fun _ _ _ _ => some "URL", fun _ _ _ => true⟩
    "acme/x" 1 "acme" [] [SyncScript.mkTitleTask "valid"]
    ⟨some "", "", []⟩ (SyncScript.mkTitleTask "valid") "valid" "URL"
    (Or.inr rfl)
  exact ⟨h.1, h.2 rfl (by decide) rfl (by decide) rfl⟩

/-! ## Claim C7 — archive failures abort the batch; exit status -/

namespace BuildScript

/-- When every archive build succeeds, `create_skill_zips` attempts every
skill in order, reports success, and writes no errors. -/
theorem create_skill_zips_all_ok (arch : Skill → Option String) :
    ∀ skills : List Skill, (∀ s ∈ skills, arch s = none) →
      create_skill_zips arch skills = (true, skills, [])
  | [], _ => rfl
  | s :: rest, h => by
    have hs : arch s = none := h s (by simp)
    have ih := create_skill_zips_all_ok arch rest (fun x hx => h x (by simp [hx]))
    simp [create_skill_zips, hs, ih]

/-- At the first failing skill, `create_skill_zips` reports failure, has
attempted exactly the prefix up to and including that skill, emits the error
line, and never attempts any later skill. -/
theorem create_skill_zips_first_failure (arch : Skill → Option String) :
    ∀ (l1 : List Skill) (s : Skill) (l2 : List Skill) (msg : String),
      (∀ x ∈ l1, arch x = none) → arch s = some msg →
      create_skill_zips arch (l1 ++ s :: l2)
        = (false, l1 ++ [s],
           ["Error creating zip for " ++ s.name ++ ": " ++ msg])
  | [], s, l2, msg, _, hs => by simp [create_skill_zips, hs]
  | x :: l1, s, l2, msg, h, hs => by
    have hx : arch x = none := h x (by simp)
    have ih := create_skill_zips_first_failure arch l1 s l2 msg
      (fun y hy => h y (by simp [hy])) hs
    simp [create_skill_zips, hx, ih]

end BuildScript

/-- **C7** (confirmed): for the discovered skill sequence, (a) if every
archive build succeeds the batch attempts every skill and `main` exits `0`;
(b) if an archive build fails at some skill (the first failure), the error
is reported, no archive is attempted for any subsequent skill — the
attempted list is exactly the prefix ending at the failing skill — and
`main` exits with the nonzero status `1`; (c) with zero skills found `main`
exits `0`. -/
theorem c7_zip_failure_aborts_batch_and_exit_status
    (root : String) (entries : List BuildScript.DirEntry)
    (arch : BuildScript.Skill → Option String) :
    ((∀ s ∈ (BuildScript.find_skills root entries).1, arch s = none) →
      BuildScript.create_skill_zips arch (BuildScript.find_skills root entries).1
        = (true, (BuildScript.find_skills root entries).1, [])
      ∧ BuildScript.build_main root entries arch = 0)
    ∧ (∀ (l1 : List BuildScript.Skill) (s : BuildScript.Skill)
         (l2 : List BuildScript.Skill) (msg : String),
        (BuildScript.find_skills root entries).1 = l1 ++ s :: l2 →
        (∀ x ∈ l1, arch x = none) → arch s = some msg →
        BuildScript.create_skill_zips arch (BuildScript.find_skills root entries).1
          = (false, l1 ++ [s],
             ["Error creating zip for " ++ s.name ++ ": " ++ msg])
        ∧ BuildScript.build_main root entries arch = 1)
    ∧ ((BuildScript.find_skills root entries).1 = [] →
        BuildScript.build_main root entries arch = 0) := by
  refine ⟨fun h => ?_, fun l1 s l2 msg hsk h hs => ?_, fun h => ?_⟩
  · have hz := BuildScript.create_skill_zips_all_ok arch _ h
    exact ⟨hz, by simp [BuildScript.build_main, hz]⟩
  · have hz := BuildScript.create_skill_zips_first_failure arch l1 s l2 msg h hs
    rw [hsk]
    exact ⟨hz, by simp [BuildScript.build_main, hsk, hz]⟩
  · simp [BuildScript.build_main, h]

/-- Witness for C7: a concrete two-skill root where (a) an always-succeeding
archiver yields exit 0, (b) an archiver failing on the second skill attempts
only the first two and yields exit 1, and (c) an empty root yields exit 0. -/
theorem c7_zip_failure_aborts_batch_and_exit_status_witness :
    (BuildScript.create_skill_zips (fun _ => none)
        (BuildScript.find_skills "/r"
          [⟨"beta", true, some "---\nname: beta\n---"⟩,
           ⟨"alpha", true, some "---\nname: alpha\n---"⟩]).1
      = (true,
         (BuildScript.find_skills "/r"
           [⟨"beta", true, some "---\nname: beta\n---"⟩,
            ⟨"alpha", true, some "---\nname: alpha\n---"⟩]).1, [])
      ∧ BuildScript.build_main "/r"
          [⟨"beta", true, some "---\nname: beta\n---"⟩,
           ⟨"alpha", true, some "---\nname: alpha\n---"⟩] (fun _ => none) = 0)
    ∧ (BuildScript.create_skill_zips
          (fun s => if s.name == "beta" then some "boom" else none)
          (BuildScript.find_skills "/r"
            [⟨"beta", true, some "---\nname: beta\n---"⟩,
             ⟨"alpha", true, some "---\nname: alpha\n---"⟩]).1
        = (false,
           [⟨"alpha", "", "/r/alpha"⟩] ++ [⟨"beta", "", "/r/beta"⟩],
           ["Error creating zip for " ++ "beta" ++ ": " ++ "boom"])
        ∧ BuildScript.build_main "/r"
            [⟨"beta", true, some "---\nname: beta\n---"⟩,
             ⟨"alpha", true, some "---\nname: alpha\n---"⟩]
            (fun s => if s.name == "beta" then some "boom" else none) = 1)
    ∧ BuildScript.build_main "/r" [] (fun _ => none) = 0 := by
  refine ⟨(c7_zip_failure_aborts_batch_and_exit_status "/r"
      [⟨"beta", true, some "---\nname: beta\n---"⟩,
       ⟨"alpha", true, some "---\nname: alpha\n---"⟩] (fun _ => none)).1
      (fun s _ => rfl),
    (c7_zip_failure_aborts_batch_and_exit_status "/r"
      [⟨"beta", true, some "---\nname: beta\n---"⟩,
       ⟨"alpha", true, some "---\nname: alpha\n---"⟩]
      (fun s => if s.name == "beta" then some "boom" else none)).2.1
      [⟨"alpha", "", "/r/alpha"⟩] ⟨"beta", "", "/r/beta"⟩ [] "boom"
      rfl (by decide) rfl,
    (c7_zip_failure_aborts_batch_and_exit_status "/r" [] (fun _ => none)).2.2
      rfl⟩

/-! ## Claim C3 — exit codes of `main` -/

namespace SyncScript

/-- `sync_tasks` returns the early error dict exactly when a top-level
precondition fails: `gh` missing/unauthenticated, the repository falsy after
resolution, or the project number falsy after resolution. -/
theorem sync_tasks_err_iff (e : GhEnv) (r0 : Option String) (p0 : Option Int)
    (ts : List Task) :
    (∃ m, sync_tasks e r0 p0 ts = .err m) ↔
      (e.ghOk = false
       ∨ pyStrFalsy (resolveRepo e r0) = true
       ∨ pyIntFalsy (resolveProj e p0 ((resolveRepo e r0).getD "")) = true) := by
  by_cases hg : e.ghOk = true
  · by_cases hr : pyStrFalsy (resolveRepo e r0) = true
    · simp [sync_tasks, hg, hr]
    · by_cases hp : pyIntFalsy (resolveProj e p0 ((resolveRepo e r0).getD "")) = true
      · simp [sync_tasks, hg, hr, hp]
      · simp [sync_tasks, hg, hr, hp]
  · simp [sync_tasks, show e.ghOk = false by simpa using hg]

end SyncScript

/-- **C3** (corrected): the original claim's "exactly when" enumeration for
exit status 1 omits an unreadable tasks file.  At this input every condition
the claim lists for exit 1 fails — the CLI is authenticated, repository and
project are explicitly supplied and resolvable, a task is supplied via
`--task`, and no JSON source is given — and the one task would sync, so the
claim predicts exit 0 (`c3SpecExit`); but `--tasks-file` names a missing
file, and `main` exits 1. -/
theorem c3_exit_code_counterexample :
    SyncScript.mainExit
        ⟨true, none, fun _ => some 1, fun _ _ _ _ => some "u", fun _ _ _ => true⟩
        ⟨some "acme/x", some 1, some none, ["x"], none⟩ = 1
    ∧ SyncScript.c3SpecExit
        ⟨true, none, fun _ => some 1, fun _ _ _ _ => some "u", fun _ _ _ => true⟩
        ⟨some "acme/x", some 1, some none, ["x"], none⟩ = 0 :=
  ⟨rfl, rfl⟩

/-- **C3** (amended): `main` exits `1` exactly when the tasks file cannot be
read, the JSON task input is malformed, no tasks are gathered, or a
top-level precondition fails (the final conjunct characterises the latter as
exactly: CLI missing/unauthenticated, repository falsy after resolution, or
project number falsy after resolution); it exits `0` exactly when none of
those hold and every task syncs (`failed_tasks = []`); and it exits `2`
exactly when none of those hold and at least one task fails. -/
theorem c3_exit_codes_amended (e : SyncScript.GhEnv) (a : SyncScript.Args) :
    (SyncScript.mainExit e a = 1 ↔
      (a.tasks_file = some none ∨ a.json_tasks = some none
       ∨ SyncScript.gatherTasks a = []
       ∨ ∃ m, SyncScript.sync_tasks e a.repo a.project_number
                (SyncScript.gatherTasks a) = .err m))
    ∧ (SyncScript.mainExit e a = 0 ↔
      (a.tasks_file ≠ some none ∧ a.json_tasks ≠ some none
       ∧ SyncScript.gatherTasks a ≠ []
       ∧ ∃ r p s, SyncScript.sync_tasks e a.repo a.project_number
                    (SyncScript.gatherTasks a) = .ok r p s []))
    ∧ (SyncScript.mainExit e a = 2 ↔
      (a.tasks_file ≠ some none ∧ a.json_tasks ≠ some none
       ∧ SyncScript.gatherTasks a ≠ []
       ∧ ∃ r p s f, SyncScript.sync_tasks e a.repo a.project_number
                      (SyncScript.gatherTasks a) = .ok r p s f ∧ f ≠ []))
    ∧ ((∃ m, SyncScript.sync_tasks e a.repo a.project_number
               (SyncScript.gatherTasks a) = .err m) ↔
      (e.ghOk = false
       ∨ SyncScript.pyStrFalsy (SyncScript.resolveRepo e a.repo) = true
       ∨ SyncScript.pyIntFalsy (SyncScript.resolveProj e a.project_number
            ((SyncScript.resolveRepo e a.repo).getD "")) = true)) := by
  refine ⟨?_, ?_, ?_,
    SyncScript.sync_tasks_err_iff e a.repo a.project_number
      (SyncScript.gatherTasks a)⟩ <;>
  · by_cases h1 : a.tasks_file = some none <;>
      by_cases h2 : a.json_tasks = some none <;>
      by_cases h3 : SyncScript.gatherTasks a = [] <;>
      rcases hs : SyncScript.sync_tasks e a.repo a.project_number
        (SyncScript.gatherTasks a) with _ | ⟨r, p, sy, f⟩ <;>
      simp [SyncScript.mainExit, h1, h2, h3, hs, ite_eq_iff] <;>
      exact ⟨fun hf => ⟨r, p, sy, f, ⟨rfl, rfl, rfl, rfl⟩, hf⟩,
        fun hx => by
          obtain ⟨r', p', s', f', ⟨hr', hp', hsy', hf'⟩, hne⟩ := hx
          subst hf'
          exact hne⟩

/-! ## Claim C6 — skill discovery -/

namespace BuildScript

theorem charListLe_total : ∀ as bs : List Char,
    charListLe as bs = true ∨ charListLe bs as = true
  | [], _ => Or.inl rfl
  | _ :: _, [] => Or.inr rfl
  | a :: as, b :: bs => by
    simp only [charListLe]
    rcases Nat.lt_trichotomy a.val.toNat b.val.toNat with h | h | h
    · left; simp [h]
    · have h1 : ¬a.val.toNat < b.val.toNat := by omega
      have h2 : ¬b.val.toNat < a.val.toNat := by omega
      rcases charListLe_total as bs with ih | ih
      · left; simp [h1, h2, ih]
      · right; simp [h1, h2, ih]
    · right; simp [h]

theorem charListLe_trans : ∀ as bs cs : List Char,
    charListLe as bs = true → charListLe bs cs = true →
    charListLe as cs = true
  | [], _, _, _, _ => rfl
  | _ :: _, [], _, h1, _ => by simp [charListLe] at h1
  | _ :: _, _ :: _, [], _, h2 => by simp [charListLe] at h2
  | a :: as, b :: bs, c :: cs, h1, h2 => by
    simp only [charListLe] at h1 h2 ⊢
    by_cases hab : a.val.toNat < b.val.toNat
    · by_cases hbc : b.val.toNat < c.val.toNat
      · simp [show a.val.toNat < c.val.toNat from by omega]
      · by_cases hcb : c.val.toNat < b.val.toNat
        · simp [hbc, hcb] at h2
        · simp [show a.val.toNat < c.val.toNat from by omega]
    · by_cases hba : b.val.toNat < a.val.toNat
      · simp [hab, hba] at h1
      · simp only [if_neg hab, if_neg hba] at h1
        by_cases hbc : b.val.toNat < c.val.toNat
        · simp [show a.val.toNat < c.val.toNat from by omega]
        · by_cases hcb : c.val.toNat < b.val.toNat
          · simp [hbc, hcb] at h2
          · simp only [if_neg hbc, if_neg hcb] at h2
            simp [show ¬a.val.toNat < c.val.toNat from by omega,
                  show ¬c.val.toNat < a.val.toNat from by omega,
                  charListLe_trans as bs cs h1 h2]

theorem skillNameLe_total (a b : Skill) :
    skillNameLe a b = true ∨ skillNameLe b a = true :=
  charListLe_total a.name.toList b.name.toList

theorem skillNameLe_trans {a b c : Skill}
    (h1 : skillNameLe a b = true) (h2 : skillNameLe b c = true) :
    skillNameLe a c = true :=
  charListLe_trans a.name.toList b.name.toList c.name.toList h1 h2

theorem perm_insertSkill (a : Skill) : ∀ l : List Skill,
    (insertSkill a l).Perm (a :: l)
  | [] => List.Perm.refl _
  | t :: ts => by
    simp only [insertSkill]
    split
    · exact List.Perm.refl _
    · exact ((perm_insertSkill a ts).cons t).trans (List.Perm.swap a t ts)

theorem perm_sortSkills : ∀ l : List Skill, (sortSkills l).Perm l
  | [] => List.Perm.refl _
  | x :: l => by
    simp only [sortSkills, List.foldr_cons]
    exact (perm_insertSkill x _).trans ((perm_sortSkills l).cons x)

theorem pairwise_insertSkill (a : Skill) : ∀ l : List Skill,
    l.Pairwise (fun x y => skillNameLe x y = true) →
    (insertSkill a l).Pairwise (fun x y => skillNameLe x y = true)
  | [], _ => by simp [insertSkill]
  | t :: ts, h => by
    obtain ⟨ht, hts⟩ := List.pairwise_cons.mp h
    simp only [insertSkill]
    split
    · next hle =>
      refine List.pairwise_cons.mpr ⟨?_, h⟩
      intro x hx
      rcases List.mem_cons.mp hx with rfl | hx
      · exact hle
      · exact skillNameLe_trans hle (ht x hx)
    · next hle =>
      refine List.pairwise_cons.mpr ⟨?_, pairwise_insertSkill a ts hts⟩
      intro x hx
      rcases List.mem_cons.mp ((perm_insertSkill a ts).mem_iff.mp hx) with rfl | hx
      · rcases skillNameLe_total x t with h' | h'
        · exact absurd h' hle
        · exact h'
      · exact ht x hx

theorem pairwise_sortSkills : ∀ l : List Skill,
    (sortSkills l).Pairwise (fun x y => skillNameLe x y = true)
  | [] => List.Pairwise.nil
  | x :: l => by
    simp only [sortSkills, List.foldr_cons]
    exact pairwise_insertSkill x _ (pairwise_sortSkills l)

/-- The qualification condition of claim C6, as a proposition on a directory
entry: an immediate subdirectory, not hidden, not excluded, with a manifest
whose metadata has a `name` key. -/
def IsSkillDir (e : DirEntry) : Prop :=
  e.isDir = true
  ∧ e.name.toList.head? ≠ some '.'
  ∧ e.name ∉ excludedDirs
  ∧ e.skillMd ≠ none
  ∧ getMeta (extract_yaml_preamble (e.skillMd.getD "")) "name" ≠ none

instance (e : DirEntry) : Decidable (IsSkillDir e) := by
  unfold IsSkillDir
  infer_instance

theorem skillOf_isSome_iff (root : String) (e : DirEntry) :
    (skillOf root e).isSome = true ↔ IsSkillDir e := by
  unfold skillOf IsSkillDir
  rcases hm : e.skillMd with _ | c
  · by_cases h1 : e.isDir <;>
      by_cases h2 : e.name.toList.head? = some '.' <;>
      by_cases h3 : e.name ∈ excludedDirs <;>
      simp [h1, h2, h3, hm, String.toList]
  · rcases hn : getMeta (extract_yaml_preamble c) "name" with _ | nm <;>
      by_cases h1 : e.isDir <;>
      by_cases h2 : e.name.toList.head? = some '.' <;>
      by_cases h3 : e.name ∈ excludedDirs <;>
      simp [h1, h2, h3, hm, hn, String.toList]

theorem skillOf_path {root : String} {e : DirEntry} {sk : Skill}
    (h : skillOf root e = some sk) : sk.path = root ++ "/" ++ e.name := by
  unfold skillOf at h
  split at h
  · exact absurd h (by simp)
  · split at h
    · exact absurd h (by simp)
    · split at h
      · exact absurd h (by simp)
      · split at h
        · exact absurd h (by simp)
        · split at h
          · exact absurd h (by simp)
          · cases h; rfl

theorem string_append_cancel_left {s a b : String} (h : s ++ a = s ++ b) :
    a = b := by
  have hd : (s ++ a).data = (s ++ b).data := by rw [h]
  simp only [String.data_append] at hd
  exact String.ext (List.append_cancel_left hd)

theorem filterMap_skillOf_filter_nil (root : String) :
    ∀ (l : List DirEntry) (e : DirEntry),
      (∀ x ∈ l, x.name ≠ e.name) →
      (l.filterMap (skillOf root)).filter
        (fun s => s.path == root ++ "/" ++ e.name) = []
  | [], _, _ => rfl
  | x :: l, e, h => by
    have hx : x.name ≠ e.name := h x (by simp)
    have ih := filterMap_skillOf_filter_nil root l e
      (fun y hy => h y (by simp [hy]))
    rcases hsk : skillOf root x with _ | sk
    · simpa [List.filterMap_cons, hsk] using ih
    · have hp : sk.path = root ++ "/" ++ x.name := skillOf_path hsk
      have hne : (sk.path == root ++ "/" ++ e.name) = false := by
        simp only [hp, beq_eq_false_iff_ne, ne_eq]
        intro hc
        exact hx (string_append_cancel_left
          (show (root ++ "/") ++ x.name = (root ++ "/") ++ e.name by
            simpa [String.append_assoc] using hc))
      simpa [List.filterMap_cons, hsk, List.filter_cons, hne] using ih

theorem filterMap_skillOf_path_count (root : String) :
    ∀ (l : List DirEntry) (e : DirEntry), e ∈ l →
      (l.map (·.name)).Nodup →
      ((l.filterMap (skillOf root)).filter
          (fun s => s.path == root ++ "/" ++ e.name)).length
        = if (skillOf root e).isSome then 1 else 0
  | [], e, he, _ => absurd he (by simp)
  | x :: l, e, he, hnd => by
    have hnd' : (l.map (·.name)).Nodup := (List.nodup_cons.mp hnd).2
    have hxl : x.name ∉ l.map (·.name) := (List.nodup_cons.mp hnd).1
    rcases List.mem_cons.mp he with rfl | hel
    · rcases hsk : skillOf root e with _ | sk
      · have : ∀ y ∈ l, y.name ≠ e.name := by
          intro y hy hc
          exact hxl (hc ▸ List.mem_map.mpr ⟨y, hy, rfl⟩)
        simp [List.filterMap_cons, hsk,
          filterMap_skillOf_filter_nil root l e this]
      · have hp : sk.path = root ++ "/" ++ e.name := skillOf_path hsk
        have hye : ∀ y ∈ l, y.name ≠ e.name := by
          intro y hy hc
          exact hxl (hc ▸ List.mem_map.mpr ⟨y, hy, rfl⟩)
        simp [List.filterMap_cons, hsk, List.filter_cons, hp,
          filterMap_skillOf_filter_nil root l e hye]
    · have hxe : x.name ≠ e.name := by
        intro hc
        exact hxl (hc ▸ List.mem_map.mpr ⟨e, hel, rfl⟩)
      have ih := filterMap_skillOf_path_count root l e hel hnd'
      rcases hsk : skillOf root x with _ | sk
      · simpa [List.filterMap_cons, hsk] using ih
      · have hp : sk.path = root ++ "/" ++ x.name := skillOf_path hsk
        have hne : (sk.path == root ++ "/" ++ e.name) = false := by
          simp only [hp, beq_eq_false_iff_ne, ne_eq]
          intro hc
          exact hxe (string_append_cancel_left
            (show (root ++ "/") ++ x.name = (root ++ "/") ++ e.name by
              simpa [String.append_assoc] using hc))
        simpa [List.filterMap_cons, hsk, List.filter_cons, hne] using ih

end BuildScript

/-- **C6** (confirmed): with distinct entry names (a directory listing),
`find_skills` returns (1) a list sorted by skill name (code-point order, as
Python compares strings); (2) exactly one record per immediate subdirectory
that is a non-hidden, non-excluded directory holding a manifest whose
metadata has a `name` key — and no record for any other entry (the count is
per-entry, so a skipped or failing directory never affects the others); and
(3) for every eligible directory whose manifest lacks a `name` key, the
warning line written to stderr.  (Only immediate entries exist in the model,
matching the code's single-level `os.listdir` scan.) -/
theorem c6_find_skills_discovery
    (root : String) (entries : List BuildScript.DirEntry)
    (hnd : (entries.map (·.name)).Nodup) :
    (BuildScript.find_skills root entries).1.Pairwise
      (fun a b => BuildScript.skillNameLe a b = true)
    ∧ (∀ e ∈ entries,
        ((BuildScript.find_skills root entries).1.filter
            (fun s => s.path == root ++ "/" ++ e.name)).length
          = if BuildScript.IsSkillDir e then 1 else 0)
    ∧ (∀ e ∈ entries, ∀ c, e.skillMd = some c →
        e.isDir = true → e.name.toList.head? ≠ some '.' →
        e.name ∉ BuildScript.excludedDirs →
        BuildScript.getMeta (BuildScript.extract_yaml_preamble c) "name" = none →
        ("Warning: " ++ root ++ "/" ++ e.name ++
            "/SKILL.md missing \x27name\x27 field")
          ∈ (BuildScript.find_skills root entries).2) := by
  refine ⟨BuildScript.pairwise_sortSkills _, fun e he => ?_, fun e he c hc h1 h2 h3 h4 => ?_⟩
  · have hperm :
        ((BuildScript.sortSkills (entries.filterMap (BuildScript.skillOf root))).filter
            (fun s => s.path == root ++ "/" ++ e.name)).Perm
          ((entries.filterMap (BuildScript.skillOf root)).filter
            (fun s => s.path == root ++ "/" ++ e.name)) :=
      (BuildScript.perm_sortSkills _).filter _
    have hcount := BuildScript.filterMap_skillOf_path_count root entries e he hnd
    have hiff := BuildScript.skillOf_isSome_iff root e
    calc ((BuildScript.find_skills root entries).1.filter
            (fun s => s.path == root ++ "/" ++ e.name)).length
        = ((entries.filterMap (BuildScript.skillOf root)).filter
            (fun s => s.path == root ++ "/" ++ e.name)).length :=
          hperm.length_eq
      _ = if (BuildScript.skillOf root e).isSome then 1 else 0 := hcount
      _ = if BuildScript.IsSkillDir e then 1 else 0 := by
          by_cases h : BuildScript.IsSkillDir e
          · simp [h, hiff.mpr h]
          · have hns : ¬((BuildScript.skillOf root e).isSome = true) :=
              fun hs => h (hiff.mp hs)
            have hnone : BuildScript.skillOf root e = none :=
              Option.not_isSome_iff_eq_none.mp (by simpa using hns)
            simp [h, hnone]
  · have hw : BuildScript.warnOf root e
        = some ("Warning: " ++ root ++ "/" ++ e.name ++
            "/SKILL.md missing \x27name\x27 field") := by
      have h2' : e.name.data.head? ≠ some '.' := h2
      unfold BuildScript.warnOf
      simp [h1, h2', h3, hc, h4]
    exact List.mem_filterMap.mpr ⟨e, he, hw⟩

/-- Witness for C6 at a concrete root listing: a sorted result, count `1`
for a qualifying directory, and the warning for a manifest missing `name`. -/
theorem c6_find_skills_discovery_witness :
    (BuildScript.find_skills "/repo"
        [⟨"zeta", true, some "---\nname: zeta-skill\n---"⟩,
         ⟨"alpha", true, some "---\nname: alpha-skill\n---"⟩,
         ⟨"noname", true, some "---\ndescription: d\n---"⟩]).1.Pairwise
      (fun a b => BuildScript.skillNameLe a b = true)
    ∧ ((BuildScript.find_skills "/repo"
          [⟨"zeta", true, some "---\nname: zeta-skill\n---"⟩,
           ⟨"alpha", true, some "---\nname: alpha-skill\n---"⟩,
           ⟨"noname", true, some "---\ndescription: d\n---"⟩]).1.filter
        (fun s => s.path == "/repo" ++ "/" ++ "zeta")).length
      = (if BuildScript.IsSkillDir ⟨"zeta", true, some "---\nname: zeta-skill\n---"⟩
         then 1 else 0)
    ∧ ("Warning: " ++ "/repo" ++ "/" ++ "noname" ++
          "/SKILL.md missing \x27name\x27 field")
        ∈ (BuildScript.find_skills "/repo"
            [⟨"zeta", true, some "---\nname: zeta-skill\n---"⟩,
             ⟨"alpha", true, some "---\nname: alpha-skill\n---"⟩,
             ⟨"noname", true, some "---\ndescription: d\n---"⟩]).2 := by
  have h := c6_find_skills_discovery "/repo"
    [⟨"zeta", true, some "---\nname: zeta-skill\n---"⟩,
     ⟨"alpha", true, some "---\nname: alpha-skill\n---"⟩,
     ⟨"noname", true, some "---\ndescription: d\n---"⟩] (by decide)
  exact ⟨h.1,
    h.2.1 ⟨"zeta", true, some "---\nname: zeta-skill\n---"⟩ (by decide),
    h.2.2 ⟨"noname", true, some "---\ndescription: d\n---"⟩ (by decide)
      "---\ndescription: d\n---" rfl rfl (by decide) (by decide) rfl⟩

/-! ## Claim C5 — checklist parsing -/

theorem dropWhile_append_all {p : Char → Bool} :
    ∀ (l1 : List Char), (∀ c ∈ l1, p c = true) → ∀ l2 : List Char,
      (l1 ++ l2).dropWhile p = l2.dropWhile p
  | [], _, _ => rfl
  | c :: l1, h, l2 => by
    have hc : p c = true := h c (by simp)
    have ih := dropWhile_append_all l1 (fun x hx => h x (by simp [hx])) l2
    simp [List.dropWhile_cons, hc, ih]

theorem dropWhile_self_idem {p : Char → Bool} :
    ∀ l : List Char, (l.dropWhile p).dropWhile p = l.dropWhile p
  | [] => rfl
  | c :: l => by
    by_cases hc : p c = true
    · simp [List.dropWhile_cons, hc, dropWhile_self_idem l]
    · simp [List.dropWhile_cons, hc]

theorem pyStripList_dropWhile (l : List Char) :
    pyStripList (l.dropWhile isPySpace) = pyStripList l := by
  unfold pyStripList
  rw [dropWhile_self_idem]

namespace SyncScript

theorem taskLineRest_of_decomp
    {ws1 : List Char} {b : Char} {ws2 : List Char} {w : Char}
    {ws3 text : List Char}
    (hws1 : ∀ c ∈ ws1, isPySpace c = true)
    (hb : b = '-' ∨ b = '*')
    (hws2ne : ws2 ≠ []) (hws2 : ∀ c ∈ ws2, isPySpace c = true)
    (hw : isPySpace w = true)
    (hws3ne : ws3 ≠ []) (hws3 : ∀ c ∈ ws3, isPySpace c = true) :
    taskLineRest (ws1 ++ (b :: (ws2 ++ ('[' :: (w :: (']' :: (ws3 ++ text)))))))
      = some (text.dropWhile isPySpace) := by
  obtain ⟨c2, ws2', rfl⟩ : ∃ c2 ws2', ws2 = c2 :: ws2' := by
    cases ws2 with
    | nil => exact absurd rfl hws2ne
    | cons a l => exact ⟨a, l, rfl⟩
  obtain ⟨c3, ws3', rfl⟩ : ∃ c3 ws3', ws3 = c3 :: ws3' := by
    cases ws3 with
    | nil => exact absurd rfl hws3ne
    | cons a l => exact ⟨a, l, rfl⟩
  have hbs : isPySpace b = false := by rcases hb with rfl | rfl <;> decide
  have hbeq : (b == '-' || b == '*') = true := by
    rcases hb with rfl | rfl <;> rfl
  have hbrk : isPySpace '[' = false := by decide
  have hc2 : isPySpace c2 = true := hws2 c2 (by simp)
  have hc3 : isPySpace c3 = true := hws3 c3 (by simp)
  have e1 : (ws1 ++ b :: c2 :: (ws2' ++ '[' :: w :: ']' :: c3 :: (ws3' ++ text))).dropWhile isPySpace
      = b :: c2 :: (ws2' ++ '[' :: w :: ']' :: c3 :: (ws3' ++ text)) := by
    rw [dropWhile_append_all ws1 hws1]
    simp [List.dropWhile_cons, hbs]
  have e2 : (c2 :: (ws2' ++ '[' :: w :: ']' :: c3 :: (ws3' ++ text))).dropWhile isPySpace
      = '[' :: w :: ']' :: c3 :: (ws3' ++ text) := by
    have hg : c2 :: (ws2' ++ '[' :: w :: ']' :: c3 :: (ws3' ++ text))
        = (c2 :: ws2') ++ '[' :: w :: ']' :: c3 :: (ws3' ++ text) := rfl
    rw [hg, dropWhile_append_all (c2 :: ws2') hws2]
    simp [List.dropWhile_cons, hbrk]
  have e3 : (c3 :: (ws3' ++ text)).dropWhile isPySpace
      = text.dropWhile isPySpace := by
    have hg : c3 :: (ws3' ++ text) = (c3 :: ws3') ++ text := rfl
    rw [hg]
    exact dropWhile_append_all (c3 :: ws3') hws3 text
  simp only [List.cons_append]
  simp only [taskLineRest, e1, e2, e3, hbeq, hc2, hw, hc3]
  simp

end SyncScript

namespace SyncScript

theorem taskLineRest_some {cs rest : List Char}
    (h : taskLineRest cs = some rest) :
    ∃ ws1 b ws2 w ws3,
      cs = ws1 ++ (b :: (ws2 ++ ('[' :: (w :: (']' :: (ws3 ++ rest))))))
      ∧ (∀ c ∈ ws1, isPySpace c = true)
      ∧ (b = '-' ∨ b = '*')
      ∧ ws2 ≠ [] ∧ (∀ c ∈ ws2, isPySpace c = true)
      ∧ isPySpace w = true
      ∧ ws3 ≠ [] ∧ (∀ c ∈ ws3, isPySpace c = true) := by
  unfold taskLineRest at h
  split at h
  · exact absurd h (by simp)
  · split at h
    · split at h
      · exact absurd h (by simp)
      · split at h
        · split at h
          · split at h
            · split at h
              · exact absurd h (by simp)
              · split at h
                · rename_i x1 b hbeq x2 c2 tail2 hd1 hc2 x3 w hw x4 c4 tail4 hd2 hc4
                  simp only [Option.some.injEq] at h
                  have h1 : cs = cs.takeWhile isPySpace ++ (b :: (c2 :: tail2)) := by
                    conv_lhs => rw [← List.takeWhile_append_dropWhile isPySpace cs]
                    rw [hd1]
                  have h2 : c2 :: tail2
                      = (c2 :: tail2).takeWhile isPySpace
                          ++ ('[' :: (w :: (']' :: (c4 :: tail4)))) := by
                    conv_lhs => rw [← List.takeWhile_append_dropWhile isPySpace (c2 :: tail2)]
                    rw [hd2]
                  have h3 : c4 :: tail4
                      = (c4 :: tail4).takeWhile isPySpace ++ rest := by
                    conv_lhs => rw [← List.takeWhile_append_dropWhile isPySpace (c4 :: tail4)]
                    rw [h]
                  refine ⟨cs.takeWhile isPySpace, b, (c2 :: tail2).takeWhile isPySpace,
                    w, (c4 :: tail4).takeWhile isPySpace, ?_, ?_, ?_, ?_, ?_, hw, ?_, ?_⟩
                  · conv_lhs => rw [h1, h2, h3]
                  · intro c hc; exact List.mem_takeWhile_imp hc
                  · have hb := hbeq
                    simp only [Bool.or_eq_true, beq_iff_eq] at hb
                    exact hb
                  · rw [List.takeWhile_cons_of_pos hc2]; simp
                  · intro c hc; exact List.mem_takeWhile_imp hc
                  · rw [List.takeWhile_cons_of_pos hc4]; simp
                  · intro c hc; exact List.mem_takeWhile_imp hc
                · exact absurd h (by simp)
            · exact absurd h (by simp)
          · exact absurd h (by simp)
        · exact absurd h (by simp)
    · exact absurd h (by simp)

end SyncScript

/-- **C5** (confirmed): a task is extracted from a checklist document exactly
when one of its lines is an unchecked list item in the sense of the
specification (`UncheckedItem`: optional leading whitespace, `-` or `*`
bullet, whitespace, `[`+single whitespace+`]`, whitespace, then text), and
the task's title is exactly the remaining text with surrounding whitespace
trimmed and nonempty.  Concretely, `"- [ ] Buy milk"` yields title
`"Buy milk"` and the checked `"- [x] Done thing"` yields no task. -/
theorem c5_parse_markdown_tasks_unchecked_items :
    (∀ (content : String) (t : SyncScript.Task),
      t ∈ SyncScript.parse_markdown_tasks content ↔
        ∃ line ∈ splitOnNl content.toList, ∃ title,
          UncheckedItem line title
          ∧ t = SyncScript.mkTitleTask (String.mk title))
    ∧ SyncScript.parse_markdown_tasks "- [ ] Buy milk"
        = [SyncScript.mkTitleTask "Buy milk"]
    ∧ SyncScript.parse_markdown_tasks "- [x] Done thing" = [] := by
  refine ⟨fun content t => ⟨fun hmem => ?_, fun hex => ?_⟩, rfl, rfl⟩
  · obtain ⟨line, hline, hf⟩ := List.mem_filterMap.mp hmem
    rcases hr : SyncScript.taskLineRest line with _ | rest
    · rw [hr] at hf; exact absurd hf (by simp)
    · rw [hr] at hf
      simp only at hf
      rcases he : (pyStripList rest).isEmpty with _ | _
      · rw [he] at hf
        simp only [Bool.false_eq_true, if_false, Option.some.injEq] at hf
        have hne : pyStripList rest ≠ [] := by
          intro hc
          rw [hc] at he
          simp at he
        obtain ⟨ws1, b, ws2, w, ws3, hdec, hws1, hb, hws2ne, hws2, hw, hws3ne, hws3⟩ :=
          SyncScript.taskLineRest_some hr
        refine ⟨line, hline, pyStripList rest, ?_, hf.symm⟩
        rw [hdec]
        exact UncheckedItem.mk ws1 b ws2 w ws3 rest
          hws1 hb hws2ne hws2 hw hws3ne hws3 hne
      · rw [he] at hf
        exact absurd hf (by simp)
  · obtain ⟨line, hline, title, hitem, ht⟩ := hex
    rcases hitem with ⟨ws1, b, ws2, w, ws3, text, hws1, hb, hws2ne, hws2, hw, hws3ne, hws3, hne⟩
    have hrest := @SyncScript.taskLineRest_of_decomp ws1 b ws2 w ws3 text
      hws1 hb hws2ne hws2 hw hws3ne hws3
    refine List.mem_filterMap.mpr ⟨_, hline, ?_⟩
    rw [hrest]
    simp only [pyStripList_dropWhile]
    have hie : (pyStripList text).isEmpty = false := by
      rcases hpe : pyStripList text with _ | _
      · exact absurd hpe hne
      · rfl
    rw [hie]
    simp only [Bool.false_eq_true, if_false, Option.some.injEq]
    exact ht.symm
